import Mathlib

/-!
Verification of the tinyblend `.blend` loader (`tinyblend.py`) against its
natural-language specification.

The Python source is shallowly embedded: byte strings become `List Nat`
(one entry per byte, values `0..255`), Python exceptions become an explicit
`PyErr` error type threaded through `Except`, the handle/weakref state of
`BlenderFile` becomes an explicit record, and the dynamic record types
synthesized by `BlenderObjectFactory._build_objects` are modelled by the
data that determines their behaviour (format sizes, field values, cache
identities).  Each definition carries a comment naming the source function
it embeds.  All definitions come first; the theorems about them follow.
-/

namespace Tinyblend

/-- Python exceptions raised by the source, one constructor per exception
class (messages kept where the source distinguishes errors by message).
`importError` is `BlenderFileImportException`, `readError` is
`BlenderFileReadException`; the remaining constructors are the Python
builtin exceptions that can escape the source (`KeyError` from
`find_by_name`, `RuntimeError` from the weakref checks, `AttributeError`
from an unset attribute, `ValueError` from `bytes.index`/`range`/closed
file I/O, `struct.error` from `Struct.unpack` on a short buffer). -/
inductive PyErr where
  | importError (msg : String)
  | readError (msg : String)
  | keyError
  | runtimeError
  | attributeError
  | valueError
  | structError
deriving DecidableEq, Repr

/-- Decidable equality for `Except` results, so that concrete runs can be
settled by evaluation. -/
instance {ε α : Type} [DecidableEq ε] [DecidableEq α] : DecidableEq (Except ε α) :=
  fun x y =>
    match x, y with
    | .error e, .error f =>
        if h : e = f then isTrue (congrArg Except.error h)
        else isFalse (fun hc => h (by injection hc))
    | .error _, .ok _ => isFalse (fun hc => by injection hc)
    | .ok _, .error _ => isFalse (fun hc => by injection hc)
    | .ok a, .ok b =>
        if h : a = b then isTrue (congrArg Except.ok h)
        else isFalse (fun hc => h (by injection hc))

/-- `BlenderFile.Arch`: pointer width selector (`'_'` is X32, `'-'` is X64). -/
inductive Arch where
  | X32
  | X64
deriving DecidableEq, Repr

/-- `BlenderFile.Endian`. -/
inductive Endian where
  | Little
  | Big
deriving DecidableEq, Repr

/-- `BlenderFile.BlendFileInfo` with `VersionInfo` inlined as an `Int` triple:
the source computes each version component as `x - 48` on a byte `x`, which
can be negative for non-digit bytes, hence `Int`. -/
structure BlendFileInfo where
  version : Int × Int × Int
  arch : Arch
  endian : Endian
deriving DecidableEq, Repr

/-- The 7 magic bytes `b'BLENDER'`. -/
def blender_magic : List Nat := [66, 76, 69, 78, 68, 69, 82]

/-- `BlenderFile._parse_header`: validates length, magic, the arch byte
(`'-'` = 45, `'_'` = 95) and the endian byte (`'v'` = 118, `'V'` = 86);
bytes 9..11 are turned into version components by subtracting 48 with no
validation. Returns `none` exactly where the source returns `None`. -/
def parse_header (header : List Nat) : Option BlendFileInfo :=
  if header.length ≠ 12 ∨ header.take 7 ≠ blender_magic then none
  else
    let archb := header.getD 7 0
    let endianb := header.getD 8 0
    let version := (header.drop 9).map (fun x => (x : Int) - 48)
    let arch : Option Arch :=
      if archb = 45 then some Arch.X64
      else if archb = 95 then some Arch.X32
      else none
    let endian : Option Endian :=
      if endianb = 118 then some Endian.Little
      else if endianb = 86 then some Endian.Big
      else none
    match arch, endian with
    | some a, some e =>
        some { version := (version.getD 0 0, version.getD 1 0, version.getD 2 0),
               arch := a, endian := e }
    | _, _ => none

/-! ## Record equality (`BlenderObject.__eq__`) -/

/-- A materialized record, reduced to what `BlenderObject.__eq__` consults:
the synthesized type (`type(self)`; synthesized types are interned per
`(version, name)` in `BlenderObject.CACHE`, so type identity is the type
name at a fixed version) and the sequence of logical non-pointer scalar
field values in `FMT.names._fields` order.  Each entry of `values` is one
comparison unit of `__eq__`: a scalar field, or an array field whose
per-element names `name_i_n` the source collapses into a single tuple
compared atomically (the regex bookkeeping that groups those names is
folded into the list structure here). -/
structure BRecord where
  rtype : String
  values : List Int
deriving DecidableEq, Repr

/-- `BlenderObject.__eq__`: returns `False` on a type mismatch, then starts
from `eq = False` and executes `eq |= getattr(self, name) == getattr(other, name)`
for each logical field, returning the final `eq`.  Note the `|=`: the
result is an OR over per-field equalities, not an AND. -/
def record_eq (self other : BRecord) : Bool :=
  if self.rtype ≠ other.rtype then false
  else (self.values.zip other.values).foldl (fun eq p => eq || (p.1 == p.2)) false

/-! ## Decoder synthesis cache (`BlenderObjectFactory._build_objects`) -/

/-- The version key of the caches: the `VersionInfo` triple. -/
abbrev VersionKey := Int × Int × Int

/-- The global cache `BlenderObject.CACHE`, a dict of
`{VERSION: {CLASS_NAME: weakref-to-CLASS}}`, plus a supply of fresh object
identities.  A synthesized type object is modelled by its identity (a `Nat`:
two calls return the same type object iff they return the same identity).
An entry `(name, none)` models a weakref whose target was collected;
`(name, some id)` a live weakref to the type with identity `id`. -/
structure ObjCache where
  entries : List (VersionKey × List (String × Option Nat))
  fresh : Nat
deriving DecidableEq, Repr

/-- Association-list lookup (Python `dict.get`). -/
def alist_get {α β : Type} [BEq α] (l : List (α × β)) (k : α) : Option β :=
  (l.find? (fun p => p.1 == k)).map Prod.snd

/-- Association-list update (Python `dict.__setitem__`): replace the value
at the first occurrence of the key, or append the binding. -/
def alist_set {α β : Type} [BEq α] : List (α × β) → α → β → List (α × β)
  | [], k, v => [(k, v)]
  | p :: l, k, v => if p.1 == k then (k, v) :: l else p :: alist_set l k v

/-- The cache discipline of `BlenderObjectFactory._build_objects` for the
requested `(version, name)` pair: fetch (or create) the per-version cache,
return the cached type if its weakref is alive
(`obj = (version_cache.get(name) or (lambda: None))(); if obj is not None: return obj`),
otherwise build a new type object (`type(name, (BlenderObject,), class_attrs)`,
modelled as a fresh identity — the field/format computation of the new type
does not influence which object is returned) and store `version_cache[name] = ref(obj)`.
Returns the type identity and the updated cache state. -/
def build_objects (version : VersionKey) (name : String) (st : ObjCache) :
    Nat × ObjCache :=
  let version_cache := (alist_get st.entries version).getD []
  match alist_get version_cache name with
  | some (some obj) => (obj, st)
  | _ =>
      let obj := st.fresh
      let version_cache := alist_set version_cache name (some obj)
      ( obj,
        { entries := alist_set st.entries version version_cache,
          fresh := st.fresh + 1 } )

/-- The death of a weakref target (`gc.collect()` after all references are
dropped): the cache entry's target becomes `None`.  Not used by the claim
theorem; it documents which transitions the `Option` in `ObjCache` models. -/
def collect_object (version : VersionKey) (name : String) (st : ObjCache) : ObjCache :=
  { st with
    entries :=
      alist_set st.entries version
        (alist_set ((alist_get st.entries version).getD []) name none) }

/-! ## Pointer-field descriptor (`AddressLookup`) -/

/-- The dynamic value a pointer field carries after unpacking: a single
address (`type(ptr) is int`) or a tuple of addresses (`type(ptr) is tuple`,
for pointer array fields). -/
inductive PtrVal where
  | addr (n : Nat)
  | addrs (l : List Nat)
deriving DecidableEq, Repr

/-- The `AddressLookup` descriptor object.  Crucially, exactly as in the
source, `value` lives on the *descriptor* (`__slots__ = ['name', 'value']`),
which is created once per pointer field when the class is synthesized and
is therefore shared by every record of that class; it is not per-record
state.  `name` is the field name without the `ptr_` storage prefix. -/
structure AddressLookup (α : Type) where
  name : String
  value : Option α
deriving DecidableEq, Repr

/-- `AddressLookup.__get__`: if `self.value` is unset, fetch the raw
`ptr_<name>` attribute of the record the access went through, resolve a
non-zero single address through `file._from_address`, a tuple through
`file._from_addresses` (both may raise, in which case `value` stays unset),
and cache the result in `self.value`; a zero single address leaves `value`
unset and returns `None`.  Returns the produced value and the descriptor
afterwards.  `record_fields` is the record's raw attribute table
(`getattr(instance, 'ptr_' + name)`). -/
def address_lookup_get {α : Type} (d : AddressLookup α)
    (record_fields : String → PtrVal)
    (from_addr : Nat → Except PyErr α)
    (from_addrs : List Nat → Except PyErr α) :
    Except PyErr (Option α × AddressLookup α) :=
  match d.value with
  | some v => .ok (some v, d)
  | none =>
      match record_fields ("ptr_" ++ d.name) with
      | .addr n =>
          if n ≠ 0 then do
            let v ← from_addr n
            .ok (some v, { d with value := some v })
          else .ok (none, d)
      | .addrs l => do
          let v ← from_addrs l
          .ok (some v, { d with value := some v })

/-! ## File state, block directory entries, pointer resolution -/

/-- `BlenderFile.BlendBlockHeader`: one parsed block header
(`code`, `size`, `addr`, `sdna`, `count` as unpacked by `'4siPii'`). -/
structure BlendBlockHeader where
  code : List Nat
  size : Nat
  addr : Nat
  sdna : Nat
  count : Nat
deriving DecidableEq, Repr

/-- The state of an opened `BlenderFile` as the record/factory methods see
it.  `freed` is true once the Python object has been garbage-collected (the
weakrefs held by factories and records then return `None`); `handleClosed`
is true once `close()` has run (`self.handle.close()` — note it does *not*
set `freed`).  `blocks` is the block directory `(header, payload offset)`
in on-disk order.  The remaining fields abstract the handle contents and
the synthesized decoders: `read0 b off` is the payload `handle.read(b.size)`
returns at offset `off` when the handle is open; `fmt_size i` is
`obj.FMT.format.size` of the decoder synthesized for `structures[i]`;
`idname data` is the `id.name` byte string of the record decoded from
`data`. -/
structure BFile where
  freed : Bool
  handleClosed : Bool
  blocks : List (BlendBlockHeader × Nat)
  read0 : BlendBlockHeader → Nat → List Nat
  fmt_size : Nat → Nat
  idname : List Nat → List Nat

/-- `BlenderFile.close`: `self.handle.close()` and nothing else. -/
def close_file (st : BFile) : BFile := { st with handleClosed := true }

/-- The facade object being garbage-collected (what `del blend` plus a GC
cycle does): every weakref to it now returns `None`. -/
def free_file (st : BFile) : BFile := { st with freed := true }

/-- `BlenderFile._read_block`: `handle.seek(offset); handle.read(block.size)`.
On a closed handle both calls raise `ValueError` ('I/O operation on closed
file'). -/
def read_block (st : BFile) (block : BlendBlockHeader) (offset : Nat) :
    Except PyErr (List Nat) :=
  if st.handleClosed then .error .valueError else .ok (st.read0 block offset)

/-- The scan loop of `BlenderFile._from_address`: walk the whole directory
keeping the last block whose `addr` equals the pointer (no `break` in the
source). -/
def find_block (blocks : List (BlendBlockHeader × Nat)) (ptr : Nat) :
    Option (BlendBlockHeader × Nat) :=
  blocks.foldl (fun acc b => if b.1.addr = ptr then some b else acc) none

/-- The value `_from_address` materializes: one record, or a tuple of
records for a multi-count block.  A record is identified with the byte
slice it is decoded from. -/
inductive Resolution where
  | one (data : List Nat)
  | many (items : List (List Nat))
deriving DecidableEq, Repr

/-- Python `range(0, stop, step)` for `step > 0` (the source only uses
`start = 0`; `step = 0` raises and is handled at the call site). -/
def range_step (stop step : Nat) : List Nat :=
  (List.range ((stop + step - 1) / step)).map (fun i => i * step)

/-- `BlenderFile._from_address`: find the (last) directory block whose
original address equals `ptr`; raise
`BlenderFileReadException('Cannot find the address ...')` when there is
none; otherwise read the payload and materialize one record when
`block.count == 1`, else a tuple of slices `block_data[x:x+step]` for `x`
in `range(0, block.size, step)` where `step` is the synthesized decoder's
total format size (`range` raises `ValueError` when `step == 0`). -/
def from_address (st : BFile) (ptr : Nat) : Except PyErr Resolution := do
  match find_block st.blocks ptr with
  | none => .error (.readError "Cannot find the address in the blend file")
  | some (block, offset) =>
      let block_data ← read_block st block offset
      if block.count = 1 then .ok (.one block_data)
      else
        let step := st.fmt_size block.sdna
        if step = 0 then .error .valueError
        else
          .ok (.many ((range_step block.size step).map
            (fun x => (block_data.drop x).take step)))

/-- `BlenderFile._from_addresses`: element-wise resolution of a tuple of
addresses, `None` for zero entries, left to right, propagating the first
raised exception. -/
def from_addresses (st : BFile) : List Nat → Except PyErr (List (Option Resolution))
  | [] => .ok []
  | p :: rest => do
      let r ← if p ≠ 0 then (from_address st p).map some else .ok none
      let rs ← from_addresses st rest
      .ok (r :: rs)

/-- The value type stored by an `AddressLookup` descriptor attached to a
real file: a single/tuple resolution (`_from_address`) or a list of
optional resolutions (`_from_addresses`). -/
abbrev PtrTarget := Resolution ⊕ List (Option Resolution)

/-! ## SDNA index, factories (`BlenderFile.list`, `BlenderObjectFactory`) -/

/-- `BlenderFile.BlendStructDNA`: a structure definition — the type-name
index of the struct itself and its `(field type index, field name index)`
list. -/
structure BlendStructDNA where
  index : Nat
  fields : List (Nat × Nat)
deriving DecidableEq, Repr

/-- `BlenderFile.BlendIndex`: the four parallel SDNA tables. -/
structure BlendIndex where
  field_names : List String
  type_names : List String
  type_sizes : List Nat
  structures : List BlendStructDNA
deriving DecidableEq, Repr

/-- The state of a `BlenderObjectFactory` relevant to its methods:
`sdna_index` (position of the struct in `index.structures`), `has_name`
(whether some field's type name is `'ID'`), and the struct's own type-name
index (`struct_dna.index`). -/
structure FactoryM where
  sdna_index : Nat
  has_name : Bool
  type_index : Nat
deriving DecidableEq, Repr

/-- `BlenderObjectFactory.__init__` given the file's SDNA tables and the
requested type-name index: scan `enumerate(index.structures)` for the first
structure whose `index` equals `type_name_index`; when none matches,
`self.struct_dna` is never assigned and the subsequent
`self.struct_dna.fields` access raises `AttributeError`.  `has_name` is
`'ID' in (type_names[ftype] for ftype, fname in fields)`.  (The decoder
synthesis the constructor also triggers is modelled by `build_objects`.) -/
def factory_init (idx : BlendIndex) (type_name_index : Nat) : Except PyErr FactoryM :=
  match idx.structures.enum.find? (fun p => p.2.index = type_name_index) with
  | none => .error .attributeError
  | some (i, struct_dna) =>
      let has_name :=
        (struct_dna.fields.map (fun f => idx.type_names.getD f.1 "")).contains "ID"
      .ok { sdna_index := i, has_name := has_name, type_index := struct_dna.index }

/-- `BlenderFile.list` (cache-miss path; the cache can only return
factories this path previously built): `self.index.type_names.index(name)`
raises `ValueError` when the name is absent, which the source catches and
converts to `BlenderFileReadException('Data type ... could not be found in
the blend file')`; any other exception from the factory constructor —
in particular the `AttributeError` for a non-struct type — propagates. -/
def list_factory (idx : BlendIndex) (name : String) : Except PyErr FactoryM :=
  match idx.type_names.findIdx? (fun t => t = name) with
  | none => .error (.readError "Data type could not be found in the blend file")
  | some tni => factory_init idx tni

/-- `BlenderObjectFactory.__len__`: `self.file` first (raises
`RuntimeError('Parent blend file was freed')` when the weakref is dead),
then counts directory blocks whose `sdna` equals `self.sdna_index` — the
handle is never touched. -/
def factory_len (st : BFile) (fac : FactoryM) : Except PyErr Nat :=
  if st.freed then .error .runtimeError
  else .ok (st.blocks.countP (fun b => b.1.sdna = fac.sdna_index))

/-! ## `find_by_name` -/

/-- The loop body of `BlenderObjectFactory.find_by_name` fused with the
block filter of `__iter__`: for each directory block of the factory's
`sdna` index, decode the record (`_read_block` + decoder) and compare
`_name[2:_name.index(0)]` with the encoded target; `bytes.index(0)` raises
`ValueError` when the id name has no NUL byte.  First match wins; when the
blocks are exhausted the source raises `KeyError`. -/
def find_by_name_go (st : BFile) (fac : FactoryM) (target : List Nat) :
    List (BlendBlockHeader × Nat) → Except PyErr (List Nat)
  | [] => .error .keyError
  | b :: rest =>
      if b.1.sdna = fac.sdna_index then do
        let data ← read_block st b.1 b.2
        let nm := st.idname data
        match nm.findIdx? (fun x => x = 0) with
        | none => .error .valueError
        | some i =>
            if (nm.take i).drop 2 = target then .ok data
            else find_by_name_go st fac target rest
      else find_by_name_go st fac target rest

/-- `BlenderObjectFactory.find_by_name`: raise
`BlenderFileReadException('Object type do not have a name')` when the type
has no `ID` field — before anything else; then iterating `self` first
resolves the weakref (`RuntimeError` when the parent file was freed) and
scans the directory in order. -/
def find_by_name (st : BFile) (fac : FactoryM) (target : List Nat) :
    Except PyErr (List Nat) :=
  if fac.has_name = false then .error (.readError "Object type do not have a name")
  else if st.freed then .error .runtimeError
  else find_by_name_go st fac target st.blocks

/-- Spec-side matcher for one record: the bytes of `id.name` strictly
between offset 2 and the first NUL byte equal the target byte string. -/
def spec_name_matches (nm target : List Nat) : Bool :=
  match nm.findIdx? (fun x => x = 0) with
  | some i => (nm.take i).drop 2 = target
  | none => false

/-- The record payloads a factory iterates, in directory order
(`__iter__`: blocks filtered by `sdna`, each read and decoded). -/
def factory_records (st : BFile) (fac : FactoryM) : List (List Nat) :=
  (st.blocks.filter (fun b => b.1.sdna = fac.sdna_index)).map
    (fun b => st.read0 b.1 b.2)

/-! ## Field-name interpretation (`BlenderFile._export_struct`,
`BlenderObjectFactory.compile_fmt`) -/

/-- Python `int()` on a list of ASCII digit characters. -/
def digits_to_nat (ds : List Char) : Nat :=
  ds.foldl (fun a c => a * 10 + (c.toNat - 48)) 0

/-- `re.findall` for the pattern bracket–digits–bracket used by
`_export_struct` (`array_template`): every non-overlapping occurrence of a
bracketed non-empty digit group, scanned left to right; when the group
fails to close after an opening bracket the scan resumes with the character
following that bracket. -/
def find_bracket_nums (cs : List Char) : List Nat :=
  match cs with
  | [] => []
  | c :: rest =>
      if c = '[' then
        match h : rest.drop (rest.takeWhile Char.isDigit).length with
        | ']' :: tail =>
            if (rest.takeWhile Char.isDigit).isEmpty then find_bracket_nums rest
            else digits_to_nat (rest.takeWhile Char.isDigit) :: find_bracket_nums tail
        | _ => find_bracket_nums rest
      else find_bracket_nums rest
termination_by cs.length
decreasing_by
  · simp only [List.length_cons]
    omega
  · simp only [List.length_cons]
    have h1 := congrArg List.length h
    simp only [List.length_drop, List.length_cons] at h1
    omega
  · simp only [List.length_cons]
    omega
  · simp only [List.length_cons]
    omega

/-- `BlenderFile.BlendStructField`: one interpreted field — base name,
type name, total byte size, pointer flag, element count. -/
structure BlendStructField where
  name : String
  type : String
  size : Nat
  ptr : Bool
  count : Nat
deriving DecidableEq, Repr

/-- The per-field body of the `_export_struct` loop, given the already
looked-up raw declarator `name0 = field_names[fname]`, type name
`t = type_names[ftype]` and declared size `size0 = type_sizes[ftype]`:
`is_ptr` is `name[0] == '*'` (nothing else — a declarator starting with
`'('` is not a pointer to this code), `is_array` is `name[-1] == ']'`;
a pointer declarator is `lstrip`ped of all leading `'*'` and its size
replaced by the file's pointer size; an array declarator multiplies the
size by the product of its bracketed counts and truncates the name at the
first `'['`.  `none` models the Python exceptions on malformed declarators
(`IndexError` on an empty name, `ValueError` from `name.index` when a name
ends in `']'` but contains no `'['`). -/
def interpret_field (ptr_size : Nat) (name0 t : String) (size0 : Nat) :
    Option BlendStructField :=
  match name0.toList with
  | [] => none
  | c0 :: cs0 =>
      let cs := c0 :: cs0
      let is_ptr := c0 = '*'
      let is_array := cs.getLast? = some ']'
      let cs1 := if is_ptr then cs.dropWhile (fun c => c = '*') else cs
      let size1 := if is_ptr then ptr_size else size0
      if is_array then
        match cs1.findIdx? (fun c => c = '[') with
        | none => none
        | some i =>
            let count := (find_bracket_nums cs1).foldl (fun a n => a * n) 1
            some { name := String.mk (cs1.take i), type := t,
                   size := size1 * count, ptr := is_ptr, count := count }
      else
        some { name := String.mk cs1, type := t, size := size1, ptr := is_ptr,
               count := 1 }

/-- `BlenderFile._export_struct` over the SDNA tables: the fields of a
structure, each interpreted from `field_names[fname]`, `type_names[ftype]`
and `type_sizes[ftype]`. -/
def export_struct_fields (idx : BlendIndex) (ptr_size : Nat) (struct : BlendStructDNA) :
    Option (List BlendStructField) :=
  struct.fields.mapM (fun f =>
    interpret_field ptr_size (idx.field_names.getD f.2 "") (idx.type_names.getD f.1 "")
      (idx.type_sizes.getD f.1 0))

/-- The `_BASE_TYPES` dict: struct format char per primitive type name. -/
def base_types : List (String × String) :=
  [("float", "f"), ("double", "d"), ("int", "i"), ("short", "h"), ("char", "c"),
   ("uint64_t", "Q")]

/-- The name generation of `compile_fmt`: an array field not made of chars
gets one generated name per element (base name, element index, count,
joined by underscores); any other field keeps its single name. -/
def fmt_names_of (f : BlendStructField) : List String :=
  if 1 < f.count then
    if f.type ≠ "char" then
      (List.range f.count).map
        (fun i => f.name ++ "_" ++ toString i ++ "_" ++ toString f.count)
    else [f.name]
  else [f.name]

/-- `BlenderObjectFactory.compile_fmt`: fold the interpreted fields into a
`Struct` format string and the matching attribute names.  A pointer field
contributes `str(count) + 'P'` — a single pointer-width item per element,
whatever pointer depth the declarator had — and `ptr_`-prefixed names; a
base-type field contributes `count + 's'` for a char array else
`count + <format char>`; an embedded struct contributes `str(size) + 'x'`
padding bytes and no name. -/
def compile_fmt (fields : List BlendStructField) : String × List String :=
  fields.foldl (fun acc f =>
    if f.ptr then
      (acc.1 ++ toString f.count ++ "P",
       acc.2 ++ (fmt_names_of f).map (fun n => "ptr_" ++ n))
    else
      match alist_get base_types f.type with
      | some ch =>
          if f.type = "char" then
            if 1 < f.count then (acc.1 ++ toString f.count ++ "s", acc.2 ++ fmt_names_of f)
            else (acc.1 ++ toString f.count ++ ch, acc.2 ++ fmt_names_of f)
          else (acc.1 ++ toString f.count ++ ch, acc.2 ++ fmt_names_of f)
      | none => (acc.1 ++ toString f.size ++ "x", acc.2))
    ("", [])

/-! ## Block directory walk (`BlenderFile._parse_blocks`) -/

/-- The block code `b'DNA1'`. -/
def DNA1_code : List Nat := [68, 78, 65, 49]

/-- The block code `b'ENDB'`. -/
def ENDB_code : List Nat := [69, 78, 68, 66]

/-- Little-endian byte encoding of width `k` for value `n` (the packing
side of the block-header format; used to build concrete file images). -/
def le_bytes : Nat → Nat → List Nat
  | 0, _ => []
  | k + 1, n => n % 256 :: le_bytes k (n / 256)

/-- Little-endian value of a byte list (`Struct.unpack` of an unsigned
little-endian integer field). -/
def le_nat (bs : List Nat) : Nat :=
  bs.foldr (fun b acc => b + 256 * acc) 0

/-- `Struct('<4siPii')` unpacking of a 24-byte block header buffer (64-bit
little-endian file): code bytes, `size`, `addr`, `sdna`, `count` in order,
no padding.  The `i` fields are signed in the source, but every
well-formed file keeps them below `2^31`, where signed and unsigned
decoding agree. -/
def unpack_block_header (buf : List Nat) : BlendBlockHeader :=
  let code := buf.take 4
  let r4 := buf.drop 4
  let size := le_nat (r4.take 4)
  let r8 := r4.drop 4
  let addr := le_nat (r8.take 8)
  let r16 := r8.drop 8
  let sdna := le_nat (r16.take 4)
  let r20 := r16.drop 4
  let count := le_nat (r20.take 4)
  ⟨code, size, addr, sdna, count⟩

/-! ### The SDNA block parser (`BlenderFile._parse_index`) -/

/-- Python sequence slicing `data[start:stop]` with step 1: negative
indices count from the end and both ends clamp to the sequence. -/
def py_slice (l : List Nat) (start stop : Int) : List Nat :=
  let n : Int := l.length
  let s := if start < 0 then max (n + start) 0 else min start n
  let e := if stop < 0 then max (n + stop) 0 else min stop n
  if e ≤ s then [] else (l.drop s.toNat).take (e - s).toNat

/-- Python `data[start:]`. -/
def py_drop (l : List Nat) (start : Int) : List Nat :=
  let n : Int := l.length
  let s := if start < 0 then max (n + start) 0 else min start n
  l.drop s.toNat

/-- `Struct.unpack_from(data, offset)` buffer slicing: a negative offset
counts from the end; fewer than `size` bytes at the normalized offset
raise `struct.error`. -/
def unpack_from_bytes (size : Nat) (data : List Nat) (off : Int) :
    Except PyErr (List Nat) :=
  let o := if off < 0 then (data.length : Int) + off else off
  if o < 0 ∨ (data.length : Int) < o + size then .error .structError
  else .ok ((data.drop o.toNat).take size)

/-- Two's-complement reading of a `bits`-wide little-endian value (the
`'<i'` / `'<h'` formats are signed). -/
def sint (bits v : Nat) : Int :=
  if v < 2 ^ (bits - 1) then (v : Int) else (v : Int) - 2 ^ bits

/-- `Int.unpack_from(data, offset).val` for `Int = NamedStruct('Int', '<i', 'val')`. -/
def int32_from (data : List Nat) (off : Int) : Except PyErr Int :=
  (unpack_from_bytes 4 data off).map (fun bs => sint 32 (le_nat bs))

/-- `Short.unpack_from(data, offset).val` for `Short = NamedStruct('Short', '<h', 'val')`. -/
def int16_from (data : List Nat) (off : Int) : Except PyErr Int :=
  (unpack_from_bytes 2 data off).map (fun bs => sint 16 (le_nat bs))

/-- At most `k` splits at NUL bytes, leftmost first (each split consumes
the separator, so `k` splits consume at least `k` bytes). -/
def split_nul_go : Nat → List Nat → List (List Nat)
  | 0, bs => [bs]
  | k + 1, bs =>
      match bs.findIdx? (fun x => x = 0) with
      | none => [bs]
      | some i => bs.take i :: split_nul_go k (bs.drop (i + 1))

/-- `bytes.split(b'\x00', maxsplit)`: a negative `maxsplit` means
unlimited splitting — `bs.length` splits are more than any byte string of
that length can undergo. -/
def split_nul (maxsplit : Int) (bs : List Nat) : List (List Nat) :=
  if maxsplit < 0 then split_nul_go bs.length bs
  else split_nul_go maxsplit.toNat bs

/-- Strict UTF-8 decoding (`bytes.decode('utf-8')`): `none` models the
`UnicodeDecodeError` raised on an invalid sequence (a `ValueError`
subclass).  Accepted shapes per RFC 3629: 1 byte `00..7F`; `C2..DF` plus
one continuation `80..BF`; `E0 A0..BF 80..BF`, `E1..EC (80..BF)²`,
`ED 80..9F 80..BF` (no surrogates), `EE..EF (80..BF)²`;
`F0 90..BF (80..BF)²`, `F1..F3 (80..BF)³`, `F4 80..8F (80..BF)²`. -/
def utf8_decode : List Nat → Option (List Char)
  | [] => some []
  | b :: rest =>
      if b < 128 then
        (utf8_decode rest).map (fun cs => Char.ofNat b :: cs)
      else if 194 ≤ b ∧ b ≤ 223 then
        match rest with
        | c1 :: rest1 =>
            if 128 ≤ c1 ∧ c1 ≤ 191 then
              (utf8_decode rest1).map
                (fun cs => Char.ofNat ((b - 192) * 64 + (c1 - 128)) :: cs)
            else none
        | _ => none
      else if 224 ≤ b ∧ b ≤ 239 then
        match rest with
        | c1 :: c2 :: rest2 =>
            if (if b = 224 then 160 ≤ c1 ∧ c1 ≤ 191
                else if b = 237 then 128 ≤ c1 ∧ c1 ≤ 159
                else 128 ≤ c1 ∧ c1 ≤ 191) ∧ (128 ≤ c2 ∧ c2 ≤ 191) then
              (utf8_decode rest2).map (fun cs =>
                Char.ofNat ((b - 224) * 4096 + (c1 - 128) * 64 + (c2 - 128)) :: cs)
            else none
        | _ => none
      else if 240 ≤ b ∧ b ≤ 244 then
        match rest with
        | c1 :: c2 :: c3 :: rest3 =>
            if (if b = 240 then 144 ≤ c1 ∧ c1 ≤ 191
                else if b = 244 then 128 ≤ c1 ∧ c1 ≤ 143
                else 128 ≤ c1 ∧ c1 ≤ 191) ∧
                (128 ≤ c2 ∧ c2 ≤ 191) ∧ (128 ≤ c3 ∧ c3 ≤ 191) then
              (utf8_decode rest3).map (fun cs =>
                Char.ofNat ((b - 240) * 262144 + (c1 - 128) * 4096 +
                  (c2 - 128) * 64 + (c3 - 128)) :: cs)
            else none
        | _ => none
      else none

/-- `[n.decode('utf-8') for n in parts]`, left to right, raising at the
first invalid name. -/
def decode_all (parts : List (List Nat)) : Except PyErr (List String) :=
  parts.mapM (fun p =>
    match utf8_decode p with
    | some cs => .ok (String.mk cs)
    | none => .error .valueError)

/-- The `align()` closure of `_parse_index`: advance `offset` to the next
4-byte boundary (`tmp = offset % 4; offset += 0 if tmp == 0 else 4 - tmp`;
Python `%` on a negative value returns a result in `0..3`, as does
`Int.emod`). -/
def align4 (offset : Int) : Int :=
  let tmp := offset % 4
  if tmp = 0 then offset else offset + (4 - tmp)

/-- `sum(len(n) for n in names)` over decoded strings — character counts,
not byte counts. -/
def sum_lengths (names : List String) : Int :=
  ((names.foldl (fun a s => a + s.length) 0 : Nat) : Int)

/-- Consecutive 2-byte chunks of an even-length buffer. -/
def chunk_pairs : List Nat → List (List Nat)
  | a :: b :: rest => [a, b] :: chunk_pairs rest
  | _ => []

/-- `Short.iter_unpack(buf)` forced by the surrounding generator: raises
`struct.error` unless the buffer length is a multiple of the format size
2, then yields each `'<h'` value. -/
def iter_unpack_int16 (buf : List Nat) : Except PyErr (List Int) :=
  if buf.length % 2 ≠ 0 then .error .structError
  else .ok ((chunk_pairs buf).map (fun p => sint 16 (le_nat p)))

/-- The inner `for _ in range(field_count)` of `_parse_index`:
`BlendStructFieldDNA.unpack_from(data, offset)` (`'<hh'`, 4 bytes) per
field, `offset += 4` each time; returns the fields and the final offset. -/
def parse_struct_fields (data : List Nat) : Nat → Int →
    Except PyErr (List (Int × Int) × Int)
  | 0, offset => .ok ([], offset)
  | k + 1, offset => do
      let bs ← unpack_from_bytes 4 data offset
      let r ← parse_struct_fields data k (offset + 4)
      .ok ((sint 16 (le_nat (bs.take 2)), sint 16 (le_nat (bs.drop 2))) :: r.1, r.2)

/-- The outer `for _ in range(structure_count)` of `_parse_index`: per
structure a `'<h'` type index at `offset`, a `'<h'` field count at
`offset + 2`, then `offset += 4` and the field loop (a negative field
count iterates zero times, like `range`). -/
def parse_structures (data : List Nat) : Nat → Int →
    Except PyErr (List (Int × List (Int × Int)) × Int)
  | 0, offset => .ok ([], offset)
  | k + 1, offset => do
      let sti ← int16_from data offset
      let fc ← int16_from data (offset + 2)
      let f ← parse_struct_fields data fc.toNat (offset + 4)
      let r ← parse_structures data k f.2
      .ok ((sti, f.1) :: r.1, r.2)

/-- The verbatim result of `BlenderFile._parse_index`: the four SDNA
tables as unpacked — counts and table entries come from the signed `'i'` /
`'h'` formats, hence `Int`.  (`BlendIndex` above is the cooked table form
the factory layer consumes.) -/
structure SdnaIndex where
  field_names : List String
  type_names : List String
  type_sizes : List Int
  structures : List (Int × List (Int × Int))
deriving DecidableEq, Repr

/-- `BlenderFile._parse_index` over the `head.size` payload bytes the
handle returns, mirrored statement by statement (64-bit little-endian
file): the `b'SDNANAME'` / `b'TYPE'` / `b'TLEN'` / `b'STRC'` tag checks
raise `BlenderFileImportException('Malformed index')`; `unpack_from` past
the buffer raises `struct.error`; name lists come from
`split(b'\x00', count)[:-1]` of the tail slice, each decoded as UTF-8;
offsets advance by decoded string lengths plus separators and are 4-byte
aligned between sections; `type_data_length = 2 * type_count` is signed,
so later offsets and slice bounds are full Python integers.  The final
handle rewind only restores the caller's position and does not affect the
result. -/
def parse_index (data : List Nat) : Except PyErr SdnaIndex := do
  if data.take 8 ≠ [83, 68, 78, 65, 78, 65, 77, 69] then
    .error (.importError "Malformed index")
  else
    let offset : Int := 8
    let name_count ← int32_from data offset
    let field_names ← decode_all ((split_nul name_count (py_drop data (offset + 4))).dropLast)
    let offset := align4 (offset + sum_lengths field_names + field_names.length + 4)
    if py_slice data offset (offset + 4) ≠ [84, 89, 80, 69] then
      .error (.importError "Malformed index")
    else
      let type_count ← int32_from data (offset + 4)
      let type_names ← decode_all ((split_nul type_count (py_drop data (offset + 8))).dropLast)
      let offset := align4 (offset + sum_lengths type_names + type_names.length + 8)
      if py_slice data offset (offset + 4) ≠ [84, 76, 69, 78] then
        .error (.importError "Malformed index")
      else
        let offset := offset + 4
        let type_data_length : Int := 2 * type_count
        let type_sizes ← iter_unpack_int16 (py_slice data offset (offset + type_data_length))
        let offset := align4 (offset + type_data_length)
        if py_slice data offset (offset + 4) ≠ [83, 84, 82, 67] then
          .error (.importError "Malformed index")
        else
          let offset := offset + 8
          let structure_count ← int32_from data (offset - 4)
          let s ← parse_structures data structure_count.toNat offset
          .ok { field_names := field_names, type_names := type_names,
                type_sizes := type_sizes, structures := s.1 }

/-- Whether an `Except` computation succeeded. -/
def except_is_ok {ε α : Type} : Except ε α → Bool
  | .ok _ => true
  | .error _ => false

/-! ### The walk itself -/

/-- The `while` loop of `_parse_blocks` over the raw file bytes: `pos` is
`handle.seek(0, 1)` and `data.length` is the file size (`end`).  Reading a
header returns `(data.drop pos).take hbs`, which has fewer than `hbs`
bytes at or past EOF — `unpack` then raises `struct.error`.  A `DNA1`
header runs the inline `blend_index = self._parse_index(file_block_head)`:
`_parse_index` reads the `head.size` payload bytes that follow the header
(fewer when the file ends early), parses them — any exception it raises
propagates and aborts the walk — and rewinds the handle, after which the
loop's `handle.seek(size, 1)` skips the payload.  An `ENDB` header stops
the loop with `end_found`; any other header is appended to the directory
with its payload offset, and its payload skipped.  `fuel` bounds the
iteration count; the caller passes more than the loop can consume. -/
def parse_blocks_go (data : List Nat) (hbs : Nat) :
    Nat → Nat → Option SdnaIndex → List (BlendBlockHeader × Nat) →
    Except PyErr (List (BlendBlockHeader × Nat) × Option SdnaIndex × Bool)
  | 0, _, _, _ => .error .structError
  | fuel + 1, pos, dna, acc =>
      if pos = data.length then .ok (acc, dna, false)
      else
        let buf := (data.drop pos).take hbs
        if buf.length ≠ hbs then .error .structError
        else
          let head := unpack_block_header buf
          if head.code = DNA1_code then do
            let idx ← parse_index ((data.drop (pos + hbs)).take head.size)
            parse_blocks_go data hbs fuel (pos + hbs + head.size) (some idx) acc
          else if head.code = ENDB_code then
            .ok (acc, dna, true)
          else
            parse_blocks_go data hbs fuel (pos + hbs + head.size) dna
              (acc ++ [(head, pos + hbs)])

/-- `BlenderFile._parse_blocks` on a 64-bit little-endian file
(`header_block_size` = 24): walk from offset 12; after the loop a missing
index is reported first (`'Could not find blend file index'`, the NoSchema
error), then a missing terminator (`'End of the blend file was not
found'`, the Truncated error); otherwise return the directory and the
parsed SDNA index. -/
def parse_blocks (data : List Nat) :
    Except PyErr (List (BlendBlockHeader × Nat) × SdnaIndex) := do
  let r ← parse_blocks_go data 24 (data.length + 1) 12 none []
  match r.2.1 with
  | none => .error (.importError "Could not find blend file index")
  | some d =>
      if r.2.2 = false then .error (.importError "End of the blend file was not found")
      else .ok (r.1, d)

/-- A block as laid out on disk, for building file images: header fields
plus payload bytes (the header's `size` field is the payload length). -/
structure RawBlock where
  code : List Nat
  addr : Nat
  sdna : Nat
  count : Nat
  payload : List Nat
deriving DecidableEq, Repr

/-- Well-formedness of a raw block: 4 code bytes and integer fields within
the ranges every real file satisfies. -/
def wf_block (b : RawBlock) : Prop :=
  b.code.length = 4 ∧ b.payload.length < 2 ^ 31 ∧ b.addr < 2 ^ 64 ∧
    b.sdna < 2 ^ 31 ∧ b.count < 2 ^ 31

instance (b : RawBlock) : Decidable (wf_block b) :=
  decidable_of_iff (b.code.length = 4 ∧ b.payload.length < 2 ^ 31 ∧ b.addr < 2 ^ 64 ∧
    b.sdna < 2 ^ 31 ∧ b.count < 2 ^ 31) Iff.rfl

/-- The 24 header bytes of a block (64-bit little-endian `'4siPii'`). -/
def enc_block_header (b : RawBlock) : List Nat :=
  b.code ++ le_bytes 4 b.payload.length ++ le_bytes 8 b.addr ++
    le_bytes 4 b.sdna ++ le_bytes 4 b.count

/-- The byte image of a block sequence: each header followed by its payload. -/
def enc_blocks : List RawBlock → List Nat
  | [] => []
  | b :: rest => enc_block_header b ++ b.payload ++ enc_blocks rest

/-- The parsed header a raw block's header bytes decode to. -/
def hdr_of (b : RawBlock) : BlendBlockHeader :=
  ⟨b.code, b.payload.length, b.addr, b.sdna, b.count⟩

/-- Payload offsets of a block sequence laid out from `pos`: each block's
payload starts 24 bytes after its header. -/
def with_offsets (pos : Nat) : List RawBlock → List (RawBlock × Nat)
  | [] => []
  | b :: rest => (b, pos + 24) :: with_offsets (pos + 24 + b.payload.length) rest

/-- The directory the walk builds from a block sequence laid out at `pos`:
the blocks before the first `ENDB`, except `DNA1` handoffs, in on-disk
order with their payload offsets. -/
def dir_entries (pos : Nat) (bs : List RawBlock) : List (BlendBlockHeader × Nat) :=
  ((with_offsets pos (bs.takeWhile (fun b => !(b.code == ENDB_code)))).filter
    (fun p => !(p.1.code == DNA1_code))).map (fun p => (hdr_of p.1, p.2))

/-- The SDNA index after walking a block sequence: the parse result of the
last `DNA1` block before the first `ENDB`, or the incoming value.  (The
error branch is unreachable under the theorems' hypothesis that every
`DNA1` payload before the terminator parses; a failing parse aborts the
real walk instead.) -/
def final_index (bs : List RawBlock) (dna : Option SdnaIndex) : Option SdnaIndex :=
  (bs.takeWhile (fun b => !(b.code == ENDB_code))).foldl
    (fun d b =>
      if b.code = DNA1_code then
        match parse_index b.payload with
        | .ok idx => some idx
        | .error _ => d
      else d) dna

/-- Whether a block sequence contains the terminator. -/
def has_endb (bs : List RawBlock) : Bool :=
  bs.any (fun b => b.code == ENDB_code)

/-- A minimal valid SDNA payload (52 bytes), accepted by `_parse_index`:
`SDNANAME`, one name `x`, pad; `TYPE`, one type `y`, pad; `TLEN`, size 4,
pad; `STRC`, one structure of type index 1 with one `(1, 0)` field. -/
def sdna_payload : List Nat :=
  [83, 68, 78, 65, 78, 65, 77, 69,
   1, 0, 0, 0,
   120, 0, 0, 0,
   84, 89, 80, 69,
   1, 0, 0, 0,
   121, 0, 0, 0,
   84, 76, 69, 78,
   4, 0, 0, 0,
   83, 84, 82, 67,
   1, 0, 0, 0,
   1, 0, 1, 0,
   1, 0, 0, 0]

/-- A concrete malformed file image: a 12-byte header, a well-formed
`DNA1` block carrying a *valid* SDNA payload, then 3 stray bytes — EOF
falls in the middle of the next block header, after the inline SDNA parse
has already succeeded. -/
def midheader_eof_file : List Nat :=
  List.replicate 12 0 ++ enc_blocks [⟨DNA1_code, 0, 0, 0, sdna_payload⟩] ++ [0, 0, 0]

/-- A concrete well-formed block sequence: one ordinary `'TEST'` block
(address 7, sdna 2, count 1, payload `[9, 9]`), one `DNA1` block carrying
the valid SDNA payload, and the `ENDB` terminator. -/
def sample_blocks : List RawBlock :=
  [⟨[84, 69, 83, 84], 7, 2, 1, [9, 9]⟩, ⟨DNA1_code, 0, 0, 0, sdna_payload⟩,
   ⟨ENDB_code, 0, 0, 0, []⟩]

/-! ## Concrete sample data (used by witnesses) -/

/-- A small concrete opened file: two directory blocks, the first (`'WO..'`,
address 5, sdna 0, count 1, payload `[1,2,3]`), the second (`'DATA'`,
address 9, sdna 1, count 3, payload `[1,2,3,4,5,6]`, decoder size 2). -/
def sample_file : BFile :=
  { freed := false
    handleClosed := false
    blocks := [(⟨[87, 79, 0, 0], 3, 5, 0, 1⟩, 36), (⟨[68, 65, 84, 65], 6, 9, 1, 3⟩, 63)]
    read0 := fun b _ => if b.addr = 9 then [1, 2, 3, 4, 5, 6] else [1, 2, 3]
    fmt_size := fun i => if i = 1 then 2 else 3
    idname := fun _ => [87, 79, 65, 0] }

end Tinyblend

namespace Tinyblend

/-! # Theorems -/

/-- Claim C10: header parsing does not validate the version bytes — for every
12-byte header whose magic is `BLENDER`, whose byte 7 is `'-'` or `'_'` and
whose byte 8 is `'v'` or `'V'`, parsing succeeds regardless of bytes 9..11,
and each version component equals that byte's value minus 48. -/
theorem parse_header_ignores_version_bytes (a e b9 b10 b11 : Nat)
    (ha : a = 45 ∨ a = 95) (he : e = 118 ∨ e = 86) :
    ∃ info, parse_header [66, 76, 69, 78, 68, 69, 82, a, e, b9, b10, b11] = some info ∧
      info.version = ((b9 : Int) - 48, (b10 : Int) - 48, (b11 : Int) - 48) := by
  rcases ha with rfl | rfl <;> rcases he with rfl | rfl <;> exact ⟨_, rfl, rfl⟩

/-- Witness for C10 at the concrete header `b'BLENDER-v100'`. -/
theorem parse_header_ignores_version_bytes_witness :
    ∃ info, parse_header [66, 76, 69, 78, 68, 69, 82, 45, 118, 49, 48, 48] = some info ∧
      info.version = ((49 : Int) - 48, (48 : Int) - 48, (48 : Int) - 48) :=
  parse_header_ignores_version_bytes 45 118 49 48 48 (Or.inl rfl) (Or.inl rfl)

/-- Claim C1 (code bug, evaluated at the failing input): two records of the
same type that agree on their first scalar field but differ on the second
compare *equal* under `BlenderObject.__eq__`, because the accumulator is
combined with `|=` instead of `&=`; the claim (and the spec) require them
to compare unequal. -/
theorem record_eq_or_fold_bug :
    record_eq ⟨"World", [1, 2]⟩ ⟨"World", [1, 3]⟩ = true := by
  decide

theorem alist_get_set_self {α β : Type} [BEq α] [LawfulBEq α]
    (l : List (α × β)) (k : α) (v : β) :
    alist_get (alist_set l k v) k = some v := by
  induction l with
  | nil => simp [alist_get, alist_set]
  | cons p l ih =>
      by_cases hp : p.1 == k
      · simp [alist_get, alist_set, hp]
      · simp only [alist_set, hp, Bool.false_eq_true, if_false]
        show (List.find? (fun q => q.1 == k) (p :: alist_set l k v)).map Prod.snd = some v
        rw [List.find?_cons_of_neg (p := fun q => q.1 == k) (a := p) (alist_set l k v) hp]
        exact ih

/-- Second call on the state produced by a first call reproduces the first
call's result exactly. -/
theorem build_objects_stable (version : VersionKey) (name : String) (st : ObjCache)
    (r : Nat × ObjCache) (hr : build_objects version name st = r) :
    build_objects version name r.2 = r := by
  simp only [build_objects] at hr ⊢
  split at hr
  · next obj hcache =>
      subst hr
      simp [hcache]
  · next hcache =>
      subst hr
      simp [alist_get_set_self]

/-- Claim C9: decoder synthesis is idempotent — synthesizing the decoder
type for the same `(version, name)` pair twice, while the first result is
still referenced (no `collect_object` in between), returns the identical
object via the version-keyed cache, and leaves the cache unchanged. -/
theorem build_objects_idempotent (version : VersionKey) (name : String) (st : ObjCache) :
    (build_objects version name (build_objects version name st).2).1 =
        (build_objects version name st).1 ∧
      (build_objects version name (build_objects version name st).2).2 =
        (build_objects version name st).2 := by
  have h := build_objects_stable version name st _ rfl
  exact ⟨by rw [h], by rw [h]⟩

theorem except_pure_bind {ε α β : Type} (a : α) (f : α → Except ε β) :
    (Except.ok a >>= f : Except ε β) = f a := rfl

theorem except_error_bind {ε α β : Type} (e : ε) (f : α → Except ε β) :
    (Except.error e >>= f : Except ε β) = Except.error e := rfl

/-- Claim C3 (code bug, evaluated at the failing input): the memoized value
of a pointer field lives on the shared `AddressLookup` descriptor, not on
the record.  Here two records of the same class store different addresses
(1 and 2) in the same pointer field; resolving through `n + 100`, the first
access caches 101 on the descriptor and the second record's access returns
that same 101 instead of its own resolution 102 — resolutions of the same
field on two distinct records are not independent, contradicting the
per-(record, field) memoization of the claim. -/
theorem address_lookup_shared_across_records :
    ((address_lookup_get (α := Nat) ⟨"world", none⟩ (fun _ => .addr 1)
          (fun n => .ok (n + 100)) (fun _ => .ok 0)).bind
        (fun r => address_lookup_get r.2 (fun _ => .addr 2)
          (fun n => .ok (n + 100)) (fun _ => .ok 0))).map Prod.fst =
      .ok (some 101) := by
  rfl

/-- Claim C2 (code bug, evaluated after `close()`): `close()` only closes
the underlying handle.  As long as the facade object itself is alive
(`freed = false` — the weakrefs in factories and records only die when the
facade is garbage-collected), `len(factory)` after `close()` *succeeds*
and returns the block count instead of failing with the ParentClosed error,
and the operations that do touch the handle (iteration, `find_by_name`,
pointer resolution, all through `_read_block`) fail with `ValueError`
('I/O operation on closed file'), not with the `RuntimeError` that models
ParentClosed. -/
theorem factory_len_succeeds_after_close (st : BFile) (fac : FactoryM)
    (h : st.freed = false) :
    factory_len (close_file st) fac =
        .ok (st.blocks.countP (fun b => b.1.sdna = fac.sdna_index)) ∧
      ∀ b off, read_block (close_file st) b off = .error .valueError := by
  constructor
  · simp [factory_len, close_file, h]
  · intro b off
    simp [read_block, close_file]

/-- Witness for C2 on the concrete sample file. -/
theorem factory_len_succeeds_after_close_witness :
    factory_len (close_file sample_file) ⟨0, true, 5⟩ = .ok 1 ∧
      read_block (close_file sample_file) ⟨[87, 79, 0, 0], 3, 5, 0, 1⟩ 36 =
        .error .valueError := by
  have h := factory_len_succeeds_after_close sample_file ⟨0, true, 5⟩ rfl
  exact ⟨h.1.trans (by rfl), h.2 _ _⟩

/-- Claim C4 (code bug, evaluated at the failing input): on an SDNA whose
type table contains the primitive `'float'` (no structure uses its type
index), `BlenderFile.list('float')` reaches the factory constructor, whose
structure scan never assigns `self.struct_dna`, so the constructor raises
`AttributeError` — not the `BlenderFileReadException` that models
NotAStruct.  A name absent from the type table does fail with the
designated error. -/
theorem list_factory_nonstruct_attribute_error :
    list_factory ⟨[], ["float", "Scene"], [4, 100], [⟨1, [(0, 0)]⟩]⟩ "float" =
        .error .attributeError ∧
      list_factory ⟨[], ["float", "Scene"], [4, 100], [⟨1, [(0, 0)]⟩]⟩ "foos" =
        .error (.readError "Data type could not be found in the blend file") := by
  constructor <;> rfl

/-- Claim C6: pointer resolution.  For a non-zero address with no matching
directory block, `_from_address` fails with the DanglingPointer error; a
matching block with `count == 1` materializes one record from the payload;
a matching block with `count > 1` materializes the sequence of slices
obtained by stepping the decoder's total size through the payload, and that
sequence has exactly `count` elements; a zero single address yields `None`
without error and without caching; and `_from_addresses` resolves each
element independently — `0` to `None`, non-zero through `_from_address`. -/
theorem from_address_resolution (st : BFile) :
    (∀ ptr, find_block st.blocks ptr = none →
        from_address st ptr =
          .error (.readError "Cannot find the address in the blend file")) ∧
    (∀ ptr b off, st.handleClosed = false →
        find_block st.blocks ptr = some (b, off) → b.count = 1 →
        from_address st ptr = .ok (.one (st.read0 b off))) ∧
    (∀ ptr b off, st.handleClosed = false →
        find_block st.blocks ptr = some (b, off) → 1 < b.count →
        0 < st.fmt_size b.sdna → b.size = b.count * st.fmt_size b.sdna →
        from_address st ptr =
            .ok (.many ((range_step b.size (st.fmt_size b.sdna)).map
              (fun x => ((st.read0 b off).drop x).take (st.fmt_size b.sdna)))) ∧
          (range_step b.size (st.fmt_size b.sdna)).length = b.count) ∧
    (∀ (nm : String) (flds : String → PtrVal), flds ("ptr_" ++ nm) = .addr 0 →
        address_lookup_get (α := PtrTarget) ⟨nm, none⟩ flds
            (fun n => (from_address st n).map Sum.inl)
            (fun l => (from_addresses st l).map Sum.inr) =
          .ok (none, ⟨nm, none⟩)) ∧
    (∀ rest, from_addresses st (0 :: rest) =
        (from_addresses st rest).map (fun l => none :: l)) ∧
    (∀ p rest, p ≠ 0 → from_addresses st (p :: rest) =
        (from_address st p).bind
          (fun r => (from_addresses st rest).map (fun l => some r :: l))) := by
  refine ⟨?_, ?_, ?_, ?_, ?_, ?_⟩
  · intro ptr hfind
    simp [from_address, hfind]
  · intro ptr b off hclosed hfind hcount
    simp [from_address, hfind, read_block, hclosed, hcount, except_pure_bind]
  · intro ptr b off hclosed hfind hcount hstep hsize
    constructor
    · have h1 : b.count ≠ 1 := by omega
      have h0 : st.fmt_size b.sdna ≠ 0 := by omega
      simp [from_address, hfind, read_block, hclosed, h1, h0, except_pure_bind]
    · rw [hsize]
      have hs : 0 < st.fmt_size b.sdna := hstep
      simp only [range_step, List.length_map, List.length_range]
      generalize st.fmt_size b.sdna = s at hs ⊢
      have h1 : b.count * s + s - 1 = (s - 1) + s * b.count := by
        rw [Nat.mul_comm b.count s]
        omega
      rw [h1, Nat.add_mul_div_left _ _ hs, Nat.div_eq_of_lt (by omega), Nat.zero_add]
  · intro nm flds hflds
    simp [address_lookup_get, hflds]
  · intro rest
    simp only [from_addresses, ne_eq, not_true_eq_false, if_false, Bool.false_eq_true,
      reduceIte, except_pure_bind]
    cases hr : from_addresses st rest <;>
      simp [hr, except_pure_bind, except_error_bind, Except.map]
  · intro p rest hp
    simp only [from_addresses, hp, ne_eq, not_false_eq_true, if_true]
    cases from_address st p <;> cases hr : from_addresses st rest <;>
      simp [Except.map, Except.bind, bind, hr]

/-- Witness for C6 on the concrete sample file: a dangling address, a
single-count block, a multi-count block split into `count` slices of the
decoder size, a zero address, and an address tuple. -/
theorem from_address_resolution_witness :
    from_address sample_file 7 =
        .error (.readError "Cannot find the address in the blend file") ∧
      from_address sample_file 5 = .ok (.one [1, 2, 3]) ∧
      from_address sample_file 9 = .ok (.many [[1, 2], [3, 4], [5, 6]]) ∧
      address_lookup_get (α := PtrTarget) ⟨"next", none⟩ (fun _ => .addr 0)
          (fun n => (from_address sample_file n).map Sum.inl)
          (fun l => (from_addresses sample_file l).map Sum.inr) =
        .ok (none, ⟨"next", none⟩) := by
  have h := from_address_resolution sample_file
  refine ⟨h.1 7 rfl, h.2.1 5 _ 36 rfl rfl rfl, ?_, h.2.2.2.1 "next" _ rfl⟩
  exact ((h.2.2.1 9 _ 63 rfl rfl (by decide) (by decide) (by decide)).1).trans (by rfl)

/-- On an open, live file whose matching records all carry a NUL-terminated
id name, the `find_by_name` scan agrees with a first-match search over the
factory's records in directory order. -/
theorem find_by_name_go_first_match (st : BFile) (fac : FactoryM) (target : List Nat)
    (hclosed : st.handleClosed = false) (bs : List (BlendBlockHeader × Nat))
    (hnul : ∀ b ∈ bs, b.1.sdna = fac.sdna_index →
      (st.idname (st.read0 b.1 b.2)).findIdx? (fun x => x = 0) ≠ none) :
    find_by_name_go st fac target bs =
      match ((bs.filter (fun b => b.1.sdna = fac.sdna_index)).map
          (fun b => st.read0 b.1 b.2)).find?
          (fun data => spec_name_matches (st.idname data) target) with
      | some data => .ok data
      | none => .error .keyError := by
  induction bs with
  | nil => rfl
  | cons b rest ih =>
      have hrest : ∀ x ∈ rest, x.1.sdna = fac.sdna_index →
          (st.idname (st.read0 x.1 x.2)).findIdx? (fun y => y = 0) ≠ none :=
        fun x hx => hnul x (List.mem_cons_of_mem b hx)
      by_cases hs : b.1.sdna = fac.sdna_index
      · obtain ⟨i, hi⟩ : ∃ i,
            (st.idname (st.read0 b.1 b.2)).findIdx? (fun x => x = 0) = some i := by
          cases hfi : (st.idname (st.read0 b.1 b.2)).findIdx? (fun x => x = 0) with
          | none => exact absurd hfi (hnul b (List.mem_cons_self b rest) hs)
          | some i => exact ⟨i, rfl⟩
        simp only [find_by_name_go, hs, if_pos, read_block, hclosed, Bool.false_eq_true,
          reduceIte, except_pure_bind, hi, List.filter_cons_of_pos, List.map_cons,
          decide_eq_true_eq]
        by_cases hm : ((st.idname (st.read0 b.1 b.2)).take i).drop 2 = target
        · simp [hm, spec_name_matches, hi, List.find?_cons]
        · have hpred : spec_name_matches (st.idname (st.read0 b.1 b.2)) target = false := by
            simp [spec_name_matches, hi, hm]
          simp only [hm, Bool.false_eq_true, reduceIte, List.find?_cons, hpred]
          exact ih hrest
      · have hf : List.filter (fun x => decide (x.1.sdna = fac.sdna_index)) (b :: rest) =
            List.filter (fun x => decide (x.1.sdna = fac.sdna_index)) rest :=
          List.filter_cons_of_neg (by simpa using hs)
        simp only [find_by_name_go, hs, Bool.false_eq_true, reduceIte, hf]
        exact ih hrest

/-- Claim C7: for a factory whose type has an ID field, `find_by_name(s)`
iterates records in directory order and returns the first record whose
`id.name` bytes strictly between offset 2 and the first NUL byte equal the
encoded target, failing with the NotFound error (`KeyError`) when none
matches; a factory whose type has no ID field fails with the Unnameable
error (`BlenderFileReadException`) before touching the file or the
directory. -/
theorem find_by_name_first_match (st : BFile) (fac : FactoryM) (target : List Nat) :
    (fac.has_name = false →
        find_by_name st fac target =
          .error (.readError "Object type do not have a name")) ∧
    (fac.has_name = true → st.freed = false → st.handleClosed = false →
        (∀ b ∈ st.blocks, b.1.sdna = fac.sdna_index →
            (st.idname (st.read0 b.1 b.2)).findIdx? (fun x => x = 0) ≠ none) →
        find_by_name st fac target =
          match (factory_records st fac).find?
              (fun data => spec_name_matches (st.idname data) target) with
          | some data => .ok data
          | none => .error .keyError) := by
  constructor
  · intro hn
    simp [find_by_name, hn]
  · intro hn hfreed hclosed hnul
    simp only [find_by_name, hn, Bool.true_eq_false, reduceIte, hfreed, factory_records]
    exact find_by_name_go_first_match st fac target hclosed st.blocks hnul

/-- Witness for C7 on the concrete sample file: the target `[65]` (`'A'`)
matches the only record of the factory's type (id name `'WOA\x00'`), a
non-matching target fails with `KeyError`, and a factory without an ID
field fails with the read exception. -/
theorem find_by_name_first_match_witness :
    find_by_name sample_file ⟨0, true, 5⟩ [65] = .ok [1, 2, 3] ∧
      find_by_name sample_file ⟨0, true, 5⟩ [66] = .error .keyError ∧
      find_by_name sample_file ⟨0, false, 5⟩ [65] =
        .error (.readError "Object type do not have a name") := by
  have hnul : ∀ b ∈ sample_file.blocks, b.1.sdna = (⟨0, true, 5⟩ : FactoryM).sdna_index →
      (sample_file.idname (sample_file.read0 b.1 b.2)).findIdx? (fun x => x = 0) ≠ none := by
    intro b hb _
    simp only [sample_file, List.mem_cons, List.mem_singleton] at hb
    rcases hb with rfl | rfl | h
    · decide
    · decide
    · cases h
  refine ⟨?_, ?_, (find_by_name_first_match sample_file ⟨0, false, 5⟩ [65]).1 rfl⟩
  · exact ((find_by_name_first_match sample_file ⟨0, true, 5⟩ [65]).2
      rfl rfl rfl hnul).trans (by rfl)
  · exact ((find_by_name_first_match sample_file ⟨0, true, 5⟩ [66]).2
      rfl rfl rfl hnul).trans (by rfl)

theorem string_mk_toList (l : List Char) : (String.mk l).toList = l := rfl

/-- Claim C5 counterexample: the function-pointer declarator
`(*callback)()` is *not* treated as pointer-typed — `_export_struct`
decides pointerness from the first character only (`name[0] == '*'`), and
the first character here is `'('`. -/
theorem interpret_field_function_pointer_not_ptr :
    (interpret_field 8 "(*callback)()" "void" 0).map BlendStructField.ptr =
      some false := by
  rfl

/-- Claim C5 (amended): the field interpreter strips all leading `'*'`
characters and treats any pointer depth as a single pointer-width field
(`ptr = true`, size = the file's pointer size, one `'P'` format item from
`compile_fmt`); but a declarator beginning with `'(*'` (function pointer)
is not recognized as a pointer — pointer detection checks only whether the
first character is `'*'` — so it is interpreted as a plain non-pointer
field of its declared type and size. -/
theorem interpret_field_pointer_handling (ptr_size size0 : Nat) (t : String)
    (cs : List Char) (hna : ('*' :: cs).getLast? ≠ some ']') :
    interpret_field ptr_size (String.mk ('*' :: cs)) t size0 =
        some ⟨String.mk (cs.dropWhile (fun c => c = '*')), t, ptr_size, true, 1⟩ ∧
      (∀ nm : String, compile_fmt [⟨nm, t, ptr_size, true, 1⟩] =
        ("1P", ["ptr_" ++ nm])) ∧
      interpret_field 8 "(*callback)()" "void" 0 =
        some ⟨"(*callback)()", "void", 0, false, 1⟩ := by
  refine ⟨?_, ?_, by rfl⟩
  · simp only [interpret_field, string_mk_toList]
    rw [if_neg hna]
    simp [List.dropWhile_cons]
  · intro nm
    have h1 : compile_fmt [⟨nm, t, ptr_size, true, 1⟩] =
        ("" ++ toString (1 : Nat) ++ "P", [] ++ ["ptr_" ++ nm]) := rfl
    rw [h1, show ("" ++ toString (1 : Nat) ++ "P") = "1P" from rfl]
    rfl

/-- Witness for C5 (amended) at the pointer-to-pointer declarator `**mat`:
depth 2 collapses to one pointer-width field named `mat`. -/
theorem interpret_field_pointer_handling_witness :
    interpret_field 8 "**mat" "Material" 999 =
        some ⟨"mat", "Material", 8, true, 1⟩ ∧
      compile_fmt [⟨"mat", "Material", 8, true, 1⟩] = ("1P", ["ptr_mat"]) := by
  have h := interpret_field_pointer_handling 8 999 "Material" ['*', 'm', 'a', 't']
    (by decide)
  exact ⟨h.1.trans (by rfl), h.2.1 "mat"⟩

theorem le_bytes_length (k n : Nat) : (le_bytes k n).length = k := by
  induction k generalizing n with
  | zero => rfl
  | succ k ih => simp [le_bytes, ih]

theorem le_nat_le_bytes (k n : Nat) (h : n < 256 ^ k) : le_nat (le_bytes k n) = n := by
  induction k generalizing n with
  | zero =>
      simp only [Nat.pow_zero, Nat.lt_one_iff] at h
      subst h
      rfl
  | succ k ih =>
      have hdiv : n / 256 < 256 ^ k := by
        refine Nat.div_lt_of_lt_mul ?_
        rw [Nat.mul_comm, ← Nat.pow_succ]
        exact h
      have hr := ih (n / 256) hdiv
      simp only [le_bytes, le_nat, List.foldr_cons]
      simp only [le_nat] at hr
      rw [hr]
      omega

theorem enc_block_header_length (b : RawBlock) (hc : b.code.length = 4) :
    (enc_block_header b).length = 24 := by
  simp [enc_block_header, le_bytes_length, hc]

theorem unpack_enc (b : RawBlock) (hwf : wf_block b) :
    unpack_block_header (enc_block_header b) = hdr_of b := by
  obtain ⟨hc, hp, ha, hs, hn⟩ := hwf
  have henc : enc_block_header b =
      b.code ++ (le_bytes 4 b.payload.length ++ (le_bytes 8 b.addr ++
        (le_bytes 4 b.sdna ++ le_bytes 4 b.count))) := by
    simp [enc_block_header, List.append_assoc]
  rw [henc]
  simp only [unpack_block_header, hdr_of]
  rw [List.take_left' hc, List.drop_left' hc,
      List.take_left' (le_bytes_length 4 b.payload.length),
      List.drop_left' (le_bytes_length 4 b.payload.length),
      List.take_left' (le_bytes_length 8 b.addr),
      List.drop_left' (le_bytes_length 8 b.addr),
      List.take_left' (le_bytes_length 4 b.sdna),
      List.drop_left' (le_bytes_length 4 b.sdna),
      List.take_of_length_le (by rw [le_bytes_length]),
      le_nat_le_bytes 4 _ (lt_of_lt_of_le hp (by norm_num)),
      le_nat_le_bytes 8 _ (lt_of_lt_of_le ha (by norm_num)),
      le_nat_le_bytes 4 _ (lt_of_lt_of_le hs (by norm_num)),
      le_nat_le_bytes 4 _ (lt_of_lt_of_le hn (by norm_num))]

theorem enc_blocks_length_ge (bs : List RawBlock) :
    bs.length ≤ (enc_blocks bs).length := by
  induction bs with
  | nil => simp [enc_blocks]
  | cons b rest ih =>
      simp only [enc_blocks, List.length_append, List.length_cons, enc_block_header,
        le_bytes_length]
      omega

theorem dir_entries_cons_dna1 (pos : Nat) (b : RawBlock) (rest : List RawBlock)
    (h : b.code = DNA1_code) :
    dir_entries pos (b :: rest) = dir_entries (pos + 24 + b.payload.length) rest := by
  have hne : (b.code == ENDB_code) = false := by rw [h]; rfl
  have hd : (b.code == DNA1_code) = true := by rw [h]; rfl
  simp [dir_entries, List.takeWhile_cons, hne, with_offsets, hd]

theorem dir_entries_cons_endb (pos : Nat) (b : RawBlock) (rest : List RawBlock)
    (h : b.code = ENDB_code) :
    dir_entries pos (b :: rest) = [] := by
  have he : (b.code == ENDB_code) = true := by rw [h]; rfl
  simp [dir_entries, List.takeWhile_cons, he, with_offsets]

theorem dir_entries_cons_other (pos : Nat) (b : RawBlock) (rest : List RawBlock)
    (h1 : b.code ≠ DNA1_code) (h2 : b.code ≠ ENDB_code) :
    dir_entries pos (b :: rest) =
      (hdr_of b, pos + 24) :: dir_entries (pos + 24 + b.payload.length) rest := by
  have hne : (b.code == ENDB_code) = false := by
    simpa using h2
  have hd : (b.code == DNA1_code) = false := by
    simpa using h1
  simp [dir_entries, List.takeWhile_cons, hne, with_offsets, hd]

theorem final_index_cons_dna1 (b : RawBlock) (rest : List RawBlock)
    (dna : Option SdnaIndex) (idx : SdnaIndex) (h : b.code = DNA1_code)
    (hp : parse_index b.payload = .ok idx) :
    final_index (b :: rest) dna = final_index rest (some idx) := by
  have hne : (b.code == ENDB_code) = false := by rw [h]; rfl
  unfold final_index
  rw [List.takeWhile_cons_of_pos (by simp [hne])]
  simp [List.foldl_cons, h, hp]

theorem final_index_cons_endb (b : RawBlock) (rest : List RawBlock)
    (dna : Option SdnaIndex) (h : b.code = ENDB_code) :
    final_index (b :: rest) dna = dna := by
  have he : (b.code == ENDB_code) = true := by rw [h]; rfl
  simp [final_index, List.takeWhile_cons, he]

theorem final_index_cons_other (b : RawBlock) (rest : List RawBlock)
    (dna : Option SdnaIndex) (h1 : b.code ≠ DNA1_code) (h2 : b.code ≠ ENDB_code) :
    final_index (b :: rest) dna = final_index rest dna := by
  have hne : (b.code == ENDB_code) = false := by simpa using h2
  simp [final_index, List.takeWhile_cons, hne, h1]

/-- Walking the byte image of a well-formed block sequence laid out at
`pos` — with every `DNA1` payload before the terminator accepted by the
inline `_parse_index` — reproduces, step for step, the walk described by
`dir_entries`, `final_index` and `has_endb`. -/
theorem parse_blocks_go_sim (bs : List RawBlock) :
    ∀ (data : List Nat) (fuel pos : Nat) (dna : Option SdnaIndex)
      (acc : List (BlendBlockHeader × Nat)),
      data.drop pos = enc_blocks bs →
      data.length = pos + (enc_blocks bs).length →
      bs.length < fuel →
      (∀ b ∈ bs, wf_block b) →
      (∀ b ∈ bs.takeWhile (fun x => !(x.code == ENDB_code)), b.code = DNA1_code →
        ∃ idx, parse_index b.payload = .ok idx) →
      parse_blocks_go data 24 fuel pos dna acc =
        .ok (acc ++ dir_entries pos bs, final_index bs dna, has_endb bs) := by
  induction bs with
  | nil =>
      intro data fuel pos dna acc hdrop hlen hfuel hwf hsdna
      cases fuel with
      | zero => omega
      | succ f =>
          have hpos : pos = data.length := by
            simp only [enc_blocks, List.length_nil] at hlen
            omega
          simp [parse_blocks_go, hpos, dir_entries, final_index, has_endb, with_offsets]
  | cons b rest ih =>
      intro data fuel pos dna acc hdrop hlen hfuel hwf hsdna
      cases fuel with
      | zero => simp at hfuel
      | succ f =>
          have hwfb := hwf b (List.mem_cons_self b rest)
          have hc : b.code.length = 4 := hwfb.1
          have h24 : (enc_block_header b).length = 24 := enc_block_header_length b hc
          have hassoc : enc_blocks (b :: rest) =
              enc_block_header b ++ (b.payload ++ enc_blocks rest) := by
            simp [enc_blocks, List.append_assoc]
          have hlenc : (enc_blocks (b :: rest)).length =
              24 + b.payload.length + (enc_blocks rest).length := by
            simp [hassoc, List.length_append, h24]
            omega
          have hne : ¬(pos = data.length) := by omega
          have hbuf : (data.drop pos).take 24 = enc_block_header b := by
            rw [hdrop, hassoc, List.take_left' h24]
          have hbuflen : ((data.drop pos).take 24).length = 24 := by
            rw [hbuf]
            exact h24
          have hhead : unpack_block_header ((data.drop pos).take 24) = hdr_of b := by
            rw [hbuf]
            exact unpack_enc b hwfb
          have hd24 : data.drop (pos + 24) = b.payload ++ enc_blocks rest := by
            have h1 : (data.drop pos).drop 24 = data.drop (pos + 24) :=
              List.drop_drop _ _ _
            rw [← h1, hdrop, hassoc, List.drop_left' h24]
          have hdrop2 : data.drop (pos + 24 + b.payload.length) = enc_blocks rest := by
            have h1 : (data.drop (pos + 24)).drop b.payload.length =
                data.drop (pos + 24 + b.payload.length) := List.drop_drop _ _ _
            rw [← h1, hd24, List.drop_left' (rfl : b.payload.length = b.payload.length)]
          have hpay : (data.drop (pos + 24)).take b.payload.length = b.payload := by
            rw [hd24, List.take_left' (rfl : b.payload.length = b.payload.length)]
          have hlen2 : data.length =
              (pos + 24 + b.payload.length) + (enc_blocks rest).length := by
            omega
          have hfuel2 : rest.length < f := by
            simp only [List.length_cons] at hfuel
            omega
          have hwf2 : ∀ x ∈ rest, wf_block x := fun x hx => hwf x (List.mem_cons_of_mem b hx)
          have hsize : (hdr_of b).size = b.payload.length := rfl
          simp only [parse_blocks_go, hne, reduceIte, hbuflen, ne_eq,
            not_true_eq_false, Bool.false_eq_true, not_false_eq_true, hhead]
          by_cases hdna : b.code = DNA1_code
          · have hbne : (b.code == ENDB_code) = false := by rw [hdna]; rfl
            have htw : (b :: rest).takeWhile (fun x => !(x.code == ENDB_code)) =
                b :: rest.takeWhile (fun x => !(x.code == ENDB_code)) :=
              List.takeWhile_cons_of_pos (by simp [hbne])
            have hsdna2 : ∀ x ∈ rest.takeWhile (fun y => !(y.code == ENDB_code)),
                x.code = DNA1_code → ∃ idx, parse_index x.payload = .ok idx :=
              fun x hx => hsdna x (htw ▸ List.mem_cons_of_mem b hx)
            obtain ⟨idx, hpidx⟩ := hsdna b (htw ▸ List.mem_cons_self b _) hdna
            have hcode : (hdr_of b).code = DNA1_code := hdna
            rw [if_pos hcode, hsize, hpay, hpidx, except_pure_bind]
            rw [ih data f (pos + 24 + b.payload.length) (some idx) acc
              hdrop2 hlen2 hfuel2 hwf2 hsdna2]
            rw [dir_entries_cons_dna1 pos b rest hdna,
                final_index_cons_dna1 b rest dna idx hdna hpidx]
            have : has_endb (b :: rest) = has_endb rest := by
              simp [has_endb, hbne]
            rw [this]
          · by_cases hendb : b.code = ENDB_code
            · have h1 : ¬((hdr_of b).code = DNA1_code) := hdna
              have h2 : (hdr_of b).code = ENDB_code := hendb
              rw [if_neg h1, if_pos h2]
              rw [dir_entries_cons_endb pos b rest hendb,
                  final_index_cons_endb b rest dna hendb]
              have : has_endb (b :: rest) = true := by
                have : (b.code == ENDB_code) = true := by rw [hendb]; rfl
                simp [has_endb, this]
              rw [this, List.append_nil]
            · have hbne : (b.code == ENDB_code) = false := by simpa using hendb
              have htw : (b :: rest).takeWhile (fun x => !(x.code == ENDB_code)) =
                  b :: rest.takeWhile (fun x => !(x.code == ENDB_code)) :=
                List.takeWhile_cons_of_pos (by simp [hbne])
              have hsdna2 : ∀ x ∈ rest.takeWhile (fun y => !(y.code == ENDB_code)),
                  x.code = DNA1_code → ∃ idx, parse_index x.payload = .ok idx :=
                fun x hx => hsdna x (htw ▸ List.mem_cons_of_mem b hx)
              have h1 : ¬((hdr_of b).code = DNA1_code) := hdna
              have h2 : ¬((hdr_of b).code = ENDB_code) := hendb
              rw [if_neg h1, if_neg h2, hsize]
              rw [ih data f (pos + 24 + b.payload.length) dna
                (acc ++ [(hdr_of b, pos + 24)]) hdrop2 hlen2 hfuel2 hwf2 hsdna2]
              rw [dir_entries_cons_other pos b rest hdna hendb,
                  final_index_cons_other b rest dna hdna hendb]
              have : has_endb (b :: rest) = has_endb rest := by
                simp [has_endb, hbne]
              rw [this]
              simp [List.append_assoc]

/-- Claim C8 (amended): on a file image made of a 12-byte header followed
by a well-formed block sequence whose `DNA1` payloads (before the
terminator) are valid SDNA blocks, the walk starts at offset 12, hands
each `DNA1` payload to the inline SDNA parser (`_parse_index`) without
adding the block to the directory, stops at the first `ENDB`, and records
every other block before it in on-disk order with its payload offset; a
file with no `DNA1` before the terminator (or before a clean EOF) fails
with the NoSchema error, and a file with a `DNA1` block where `ENDB` is
never reached and EOF falls at a block boundary fails with the Truncated
error.  (An SDNA parse failure aborts the walk with `_parse_index`'s own
exception, and EOF in the middle of a block header surfaces as a
`struct.error` — see the counterexample for the latter.) -/
theorem parse_blocks_walk (h12 : List Nat) (bs : List RawBlock)
    (hh : h12.length = 12) (hwf : ∀ b ∈ bs, wf_block b)
    (hsdna : ∀ b ∈ bs.takeWhile (fun x => !(x.code == ENDB_code)),
      b.code = DNA1_code → except_is_ok (parse_index b.payload) = true) :
    parse_blocks (h12 ++ enc_blocks bs) =
      match final_index bs none with
      | none => .error (.importError "Could not find blend file index")
      | some idx =>
          if has_endb bs = false then
            .error (.importError "End of the blend file was not found")
          else .ok (dir_entries 12 bs, idx) := by
  have hsdna2 : ∀ b ∈ bs.takeWhile (fun x => !(x.code == ENDB_code)),
      b.code = DNA1_code → ∃ idx, parse_index b.payload = .ok idx := by
    intro b hb hd
    have h := hsdna b hb hd
    cases hpe : parse_index b.payload with
    | ok idx => exact ⟨idx, rfl⟩
    | error e =>
        rw [hpe] at h
        exact absurd h (by simp [except_is_ok])
  have hdrop : (h12 ++ enc_blocks bs).drop 12 = enc_blocks bs := List.drop_left' hh
  have hlen : (h12 ++ enc_blocks bs).length = 12 + (enc_blocks bs).length := by
    simp [List.length_append, hh]
  have hfuel : bs.length < (h12 ++ enc_blocks bs).length + 1 := by
    have := enc_blocks_length_ge bs
    omega
  unfold parse_blocks
  rw [parse_blocks_go_sim bs (h12 ++ enc_blocks bs) ((h12 ++ enc_blocks bs).length + 1)
    12 none [] hdrop hlen hfuel hwf hsdna2]
  rw [except_pure_bind]
  simp only [List.nil_append]

/-- Claim C8 counterexample: `midheader_eof_file` carries a well-formed
`DNA1` block whose payload the inline SDNA parse accepts, followed by 3
stray bytes — `ENDB` is never reached and EOF falls inside the next block
header.  The walk fails with `struct.error` from unpacking a 3-byte
buffer, not with the Truncated error (`'End of the blend file was not
found'`) that the claim requires for every file where `ENDB` is never
reached. -/
theorem parse_blocks_midheader_eof_struct_error :
    parse_blocks midheader_eof_file = .error .structError ∧
      parse_blocks midheader_eof_file ≠
        .error (.importError "End of the blend file was not found") := by
  constructor
  · decide
  · decide

/-- Witness for C8 (amended) on the concrete sample sequence
`TEST, DNA1, ENDB` (the `DNA1` payload is the valid minimal SDNA block):
the directory holds only the `TEST` block (payload at offset 36), and the
parsed SDNA tables are returned. -/
theorem parse_blocks_walk_witness :
    parse_blocks (List.replicate 12 0 ++ enc_blocks sample_blocks) =
      .ok ([(⟨[84, 69, 83, 84], 2, 7, 2, 1⟩, 36)],
        ⟨["x"], ["y"], [4], [(1, [(1, 0)])]⟩) := by
  have h := parse_blocks_walk (List.replicate 12 0) sample_blocks (by decide) (by decide)
    (by decide)
  exact h.trans (by decide)

end Tinyblend
